import Mathlib

/-!
Verification of the GEODES PDB sanitizer.

The repository's own logic is a line-oriented PDB sanitizer, implemented
three times with minor variations:
  * `clean_pdb_for_dssp`   (app.py, lines 17-47)        -- minimal mode
  * `clean_pdb_minimal`    (robust_pdb_cleaner.py, 86-115) -- minimal mode
  * `clean_pdb_for_mkdssp` (robust_pdb_cleaner.py, 16-83) -- permissive mode
    (we embed its line-filtering stage, lines 54-81; the Biopython
    reserialization that precedes it is an external library call)
plus the batch loop of app.py (lines 144-165) that drives the cleaner over
multiple uploaded files.

A file is modelled as a list of lines; a line is a list of characters
(Python `str`).  Python's `line.startswith(p)` is `p.isPrefixOf line`.
-/

namespace GEODES

/-- A single text line of a PDB file (Python string). -/
abbrev Line := List Char

/-- Python's `line.startswith(p)`. -/
def pyStartsWith (line p : Line) : Bool :=
  p.isPrefixOf line

/-- The synthesized HEADER record literal shared by all three cleaners
(app.py line 29, robust_pdb_cleaner.py lines 72 and 98). -/
def headerLine : Line :=
  "HEADER    PROTEIN                                 01-JAN-00   XXXX\n".toList

/-- The synthesized END record literal (app.py line 41,
robust_pdb_cleaner.py lines 77 and 110). -/
def endLine : Line := "END\n".toList

/-- `line.startswith(('ATOM  ', 'HETATM'))` — the coordinate-record test of
minimal mode (app.py line 33, robust_pdb_cleaner.py line 102). -/
def isMinimalKept (line : Line) : Bool :=
  pyStartsWith line "ATOM  ".toList || pyStartsWith line "HETATM".toList

/-- `clean_pdb_for_dssp` (app.py lines 17-47): synthesized HEADER, the
`ATOM  `/`HETATM` lines in order, a trailing END; error when no such line
exists (`has_atoms` stays false). -/
def clean_pdb_for_dssp (lines : List Line) : Except String (List Line) :=
  if (lines.filter isMinimalKept).isEmpty then
    .error "PDB file contains no ATOM records!"
  else
    .ok (headerLine :: lines.filter isMinimalKept ++ [endLine])

/-- `clean_pdb_minimal` (robust_pdb_cleaner.py lines 86-115): identical to
`clean_pdb_for_dssp` except for the error message. -/
def clean_pdb_minimal (lines : List Line) : Except String (List Line) :=
  if (lines.filter isMinimalKept).isEmpty then
    .error "No ATOM records found in PDB file!"
  else
    .ok (headerLine :: lines.filter isMinimalKept ++ [endLine])

/-- `line.startswith(('ATOM', 'HETATM', 'TER', 'END', 'MODEL', 'ENDMDL'))`
(robust_pdb_cleaner.py line 62).  Note the bare 4-character `ATOM` and that
`END` also matches `ENDMDL` lines. -/
def keepEssential (line : Line) : Bool :=
  pyStartsWith line "ATOM".toList || pyStartsWith line "HETATM".toList ||
  pyStartsWith line "TER".toList || pyStartsWith line "END".toList ||
  pyStartsWith line "MODEL".toList || pyStartsWith line "ENDMDL".toList

/-- `line.startswith(('CRYST1', 'ORIGX', 'SCALE', 'MTRIX'))`
(robust_pdb_cleaner.py line 65). -/
def keepCryst (line : Line) : Bool :=
  pyStartsWith line "CRYST1".toList || pyStartsWith line "ORIGX".toList ||
  pyStartsWith line "SCALE".toList || pyStartsWith line "MTRIX".toList

/-- The if/elif chain of the filtering loop (robust_pdb_cleaner.py lines
58-68): a line is appended to `cleaned_lines` iff this returns true. -/
def mkdsspKeep (line : Line) : Bool :=
  if pyStartsWith line "HEADER".toList then true
  else if keepEssential line then true
  else if keepCryst line then true
  else false

/-- The line-filtering stage of `clean_pdb_for_mkdssp`
(robust_pdb_cleaner.py lines 54-81): filter the lines through the if/elif
chain (setting `has_header` when a HEADER line is seen), insert the
synthesized HEADER at position 0 when none was seen, and append `END` when
the list is empty or its last line does not start with `END`. -/
def clean_pdb_for_mkdssp (lines : List Line) : List Line :=
  let cleaned := lines.filter mkdsspKeep
  let hasHeader := lines.any (fun line => pyStartsWith line "HEADER".toList)
  let withHeader := if hasHeader then cleaned else headerLine :: cleaned
  match withHeader.getLast? with
  | none => withHeader ++ [endLine]
  | some last =>
      if pyStartsWith last "END".toList then withHeader
      else withHeader ++ [endLine]

/-! ## Record classification (spec section 3 and section 6)

Records are opaque lines classified by prefix.  An `END` record is a line
whose record name is `END` — an `ENDMDL` line is an `ENDMDL` record, not an
`END` record, even though Python's `startswith('END')` accepts it. -/

/-- A `HEADER` record. -/
def isHeaderRec (line : Line) : Bool :=
  pyStartsWith line "HEADER".toList

/-- A coordinate record: `ATOM` (6-character record name `ATOM  `) or
`HETATM`. -/
def isCoordRec (line : Line) : Bool :=
  pyStartsWith line "ATOM  ".toList || pyStartsWith line "HETATM".toList

/-- An `END` record: `END`-prefixed but not an `ENDMDL` record. -/
def isEndRec (line : Line) : Bool :=
  pyStartsWith line "END".toList && !(pyStartsWith line "ENDMDL".toList)

/-- The first line exists and is a HEADER record. -/
def headIsHeader (doc : List Line) : Bool :=
  match doc.head? with
  | some l => isHeaderRec l
  | none => false

/-- The last line exists and is an END record. -/
def lastIsEnd (doc : List Line) : Bool :=
  match doc.getLast? with
  | some l => isEndRec l
  | none => false

/-- The three Sanitized Document invariants (spec section 3): exactly one
HEADER record, first in the sequence; at least one coordinate record;
exactly one END record, last in the sequence. -/
def sanitizedDoc (doc : List Line) : Bool :=
  (doc.countP isHeaderRec == 1) && headIsHeader doc &&
  doc.any isCoordRec &&
  (doc.countP isEndRec == 1) && lastIsEnd doc

/-! ## Batch loop (app.py lines 144-165)

For each uploaded file the loop saves the raw upload, runs
`clean_pdb_for_dssp`, counts a success, and on exception reports the file
and continues with the next one (`except ... continue`).  After the loop,
`processed_count == 0` stops the run before the calculator is invoked
(`st.stop()`); otherwise the calculator receives the cleaned files. -/

/-- One uploaded file: its name and its lines. -/
abbrev UploadedFile := String × List Line

/-- Whether `clean_pdb_for_dssp` succeeds on a file. -/
def cleanOk (f : UploadedFile) : Bool :=
  match clean_pdb_for_dssp f.2 with
  | .ok _ => true
  | .error _ => false

/-- The `for i, f in enumerate(uploaded_files)` loop: returns the cleaned
files written to `input_dir` (in order) and the names reported via
`st.error` (in order). -/
def runBatch : List UploadedFile → List UploadedFile × List String
  | [] => ([], [])
  | f :: rest =>
      match clean_pdb_for_dssp f.2 with
      | .ok out => ((f.1, out) :: (runBatch rest).1, (runBatch rest).2)
      | .error _ => ((runBatch rest).1, f.1 :: (runBatch rest).2)

/-- The guard after the loop: `processed_count == 0` halts (`none`) before
the calculator runs; otherwise the calculator receives the cleaned batch. -/
def calculatorInput (files : List UploadedFile) :
    Option (List UploadedFile) :=
  if (runBatch files).1.length = 0 then none else some (runBatch files).1

/-! ## Sample lines used by concrete witnesses and counterexamples -/

/-- A well-formed ATOM coordinate line. -/
def atomEx : Line :=
  "ATOM      1  N   MET A   1      0.000   0.000   0.000  1.00  0.00           N".toList

/-- A well-formed HETATM coordinate line. -/
def hetatmEx : Line :=
  "HETATM  100  O   HOH A 200      1.000   1.000   1.000  1.00  0.00           O".toList

/-- A REMARK annotation line. -/
def remarkEx : Line := "REMARK   1 SAMPLE".toList

/-- A TITLE annotation line. -/
def titleEx : Line := "TITLE SAMPLE".toList

/-- A HEADER line other than the synthesized one. -/
def headerJunkEx : Line := "HEADER junk".toList

/-- An ENDMDL record line. -/
def endmdlEx : Line := "ENDMDL".toList

/-- A line that begins with `ATOM` but not with `ATOM  `. -/
def atomicEx : Line := "ATOMIC DATA".toList

/-! ## Prefix machinery -/

/-- A line starting with `p` does not start with an incomparable `q`. -/
lemma startsWith_disjoint (p q l : Line) (hpq : p.isPrefixOf q = false)
    (hqp : q.isPrefixOf p = false) (hp : pyStartsWith l p = true) :
    pyStartsWith l q = false := by
  cases hq : pyStartsWith l q with
  | false => rfl
  | true =>
      simp only [pyStartsWith, List.isPrefixOf_iff_prefix] at hp hq
      rcases List.prefix_or_prefix_of_prefix hp hq with h | h
      · have h' := List.isPrefixOf_iff_prefix.mpr h
        rw [hpq] at h'; simp at h'
      · have h' := List.isPrefixOf_iff_prefix.mpr h
        rw [hqp] at h'; simp at h'

/-- A coordinate record is not a HEADER record. -/
lemma coord_not_header (l : Line) (h : isCoordRec l = true) :
    isHeaderRec l = false := by
  rcases Bool.or_eq_true _ _ |>.mp h with h' | h'
  · exact startsWith_disjoint _ _ _ (by decide) (by decide) h'
  · exact startsWith_disjoint _ _ _ (by decide) (by decide) h'

/-- A coordinate record is not an END record. -/
lemma coord_not_end (l : Line) (h : isCoordRec l = true) :
    isEndRec l = false := by
  have hE : pyStartsWith l "END".toList = false := by
    rcases Bool.or_eq_true _ _ |>.mp h with h' | h'
    · exact startsWith_disjoint _ _ _ (by decide) (by decide) h'
    · exact startsWith_disjoint _ _ _ (by decide) (by decide) h'
  unfold isEndRec
  rw [hE]
  rfl

/-- The two minimal-mode cleaners share their coordinate test. -/
lemma minimalKept_eq_coord : isMinimalKept = isCoordRec := rfl

/-- Inversion: a successful `clean_pdb_for_dssp` run means at least one
line passed the coordinate filter and the output is the HEADER/coords/END
sandwich. -/
lemma clean_pdb_for_dssp_ok (lines out : List Line)
    (h : clean_pdb_for_dssp lines = .ok out) :
    lines.filter isMinimalKept ≠ [] ∧
    out = headerLine :: (lines.filter isMinimalKept ++ [endLine]) := by
  unfold clean_pdb_for_dssp at h
  split at h
  · simp at h
  · next hc =>
      refine ⟨fun hnil => hc (by simp [hnil]), ?_⟩
      cases h
      simp

/-- Same inversion for `clean_pdb_minimal`. -/
lemma clean_pdb_minimal_ok (lines out : List Line)
    (h : clean_pdb_minimal lines = .ok out) :
    lines.filter isMinimalKept ≠ [] ∧
    out = headerLine :: (lines.filter isMinimalKept ++ [endLine]) := by
  unfold clean_pdb_minimal at h
  split at h
  · simp at h
  · next hc =>
      refine ⟨fun hnil => hc (by simp [hnil]), ?_⟩
      cases h
      simp

/-- The HEADER/coords/END sandwich produced by minimal mode satisfies the
three Sanitized Document invariants. -/
lemma minimal_core_sanitized (lines : List Line)
    (h : lines.filter isMinimalKept ≠ []) :
    sanitizedDoc (headerLine :: (lines.filter isMinimalKept ++ [endLine])) = true := by
  have hall : ∀ l ∈ lines.filter isMinimalKept, isCoordRec l = true := fun l hl =>
    (List.mem_filter.mp hl).2
  have hH : (lines.filter isMinimalKept).countP isHeaderRec = 0 :=
    List.countP_eq_zero.mpr (fun l hl => by simp [coord_not_header l (hall l hl)])
  have hE : (lines.filter isMinimalKept).countP isEndRec = 0 :=
    List.countP_eq_zero.mpr (fun l hl => by simp [coord_not_end l (hall l hl)])
  obtain ⟨a, ha⟩ := List.exists_mem_of_ne_nil _ h
  have hlast : (headerLine :: (lines.filter isMinimalKept ++ [endLine])).getLast?
      = some endLine := by
    rw [show headerLine :: (lines.filter isMinimalKept ++ [endLine])
        = (headerLine :: lines.filter isMinimalKept) ++ [endLine] by simp]
    exact List.getLast?_concat _
  have c1 : (headerLine :: (lines.filter isMinimalKept ++ [endLine])).countP
      isHeaderRec = 1 := by
    rw [List.countP_cons_of_pos _ _ (by decide), List.countP_append, hH,
        show List.countP isHeaderRec [endLine] = 0 from by decide]
  have c4 : (headerLine :: (lines.filter isMinimalKept ++ [endLine])).countP
      isEndRec = 1 := by
    rw [List.countP_cons_of_neg _ _ (by decide), List.countP_append, hE,
        show List.countP isEndRec [endLine] = 1 from by decide]
  have c3 : (headerLine :: (lines.filter isMinimalKept ++ [endLine])).any
      isCoordRec = true :=
    List.any_eq_true.mpr ⟨a, by simp [ha], hall a ha⟩
  unfold sanitizedDoc headIsHeader lastIsEnd
  rw [c1, c4, hlast, c3]
  simp [isHeaderRec]
  decide

/-- Filtering minimal-mode output through the coordinate test returns the
coordinate block unchanged. -/
lemma filter_minimal_sandwich (coords : List Line)
    (hall : ∀ l ∈ coords, isMinimalKept l = true) :
    (headerLine :: (coords ++ [endLine])).filter isMinimalKept = coords := by
  have h1 : isMinimalKept headerLine = false := by decide
  have h2 : isMinimalKept endLine = false := by decide
  simp [List.filter_cons, List.filter_append, h1, h2, List.filter_eq_self.mpr hall]

/-! ## Claims -/

/-- Claim C1, counterexample: permissive mode can violate the Sanitized
Document invariants on an input that has a coordinate record.  With input
`[ATOM line, HEADER line]` the filtering stage of `clean_pdb_for_mkdssp`
keeps the mid-file HEADER, sees `has_header` true, and emits a document
whose first line is the ATOM line, not a HEADER record. -/
theorem permissive_violates_invariants :
    ([atomEx, headerJunkEx] : List Line).any isCoordRec = true ∧
    clean_pdb_for_mkdssp [atomEx, headerJunkEx] = [atomEx, headerJunkEx, endLine] ∧
    sanitizedDoc (clean_pdb_for_mkdssp [atomEx, headerJunkEx]) = false :=
  ⟨rfl, rfl, rfl⟩

/-- Claim C1 (amended): for every input with at least one coordinate
record, minimal-mode sanitization (`clean_pdb_for_dssp` in app.py and
`clean_pdb_minimal` in robust_pdb_cleaner.py) produces an output
satisfying the three Sanitized Document invariants, or fails; the
permissive filtering stage of `clean_pdb_for_mkdssp` does not guarantee
the invariants. -/
theorem minimal_mode_sanitized (lines out : List Line) :
    (clean_pdb_for_dssp lines = .ok out → sanitizedDoc out = true) ∧
    (clean_pdb_minimal lines = .ok out → sanitizedDoc out = true) := by
  constructor
  · intro h
    obtain ⟨hne, hout⟩ := clean_pdb_for_dssp_ok lines out h
    rw [hout]
    exact minimal_core_sanitized lines hne
  · intro h
    obtain ⟨hne, hout⟩ := clean_pdb_minimal_ok lines out h
    rw [hout]
    exact minimal_core_sanitized lines hne

/-- Claim C1, witness: the amended theorem evaluated on a one-ATOM input. -/
theorem minimal_mode_sanitized_witness :
    sanitizedDoc [headerLine, atomEx, endLine] = true :=
  (minimal_mode_sanitized [atomEx] [headerLine, atomEx, endLine]).1 rfl

/-- Claim C2, counterexample: on an input with zero coordinate records the
permissive filtering stage of `clean_pdb_for_mkdssp` does not fail — it is
total and returns the document `[HEADER, END]` for a single REMARK line. -/
theorem permissive_succeeds_without_coords :
    ([remarkEx] : List Line).any isCoordRec = false ∧
    clean_pdb_for_mkdssp [remarkEx] = [headerLine, endLine] :=
  ⟨rfl, rfl⟩

/-- Claim C2 (amended): on inputs with zero coordinate records the two
minimal-mode cleaners fail with their no-ATOM-records error; the
permissive filtering stage never fails and still produces a document. -/
theorem minimal_fails_without_coords (lines : List Line)
    (h : lines.any isCoordRec = false) :
    clean_pdb_for_dssp lines = .error "PDB file contains no ATOM records!" ∧
    clean_pdb_minimal lines = .error "No ATOM records found in PDB file!" := by
  have hnil : lines.filter isMinimalKept = [] := by
    rw [List.filter_eq_nil_iff]
    intro a ha
    have := List.any_eq_false.mp h a ha
    simpa [minimalKept_eq_coord] using this
  constructor
  · unfold clean_pdb_for_dssp
    rw [if_pos (by simp [hnil])]
  · unfold clean_pdb_minimal
    rw [if_pos (by simp [hnil])]

/-- Claim C2, witness: the amended theorem evaluated on a one-REMARK
input. -/
theorem minimal_fails_without_coords_witness :
    clean_pdb_for_dssp [remarkEx] = .error "PDB file contains no ATOM records!" ∧
    clean_pdb_minimal [remarkEx] = .error "No ATOM records found in PDB file!" :=
  minimal_fails_without_coords [remarkEx] rfl

/-- Claim C3 (confirmed): minimal mode is idempotent — re-sanitizing a
successful minimal-mode output returns that output unchanged. -/
theorem minimal_mode_idempotent (x out : List Line)
    (h : clean_pdb_for_dssp x = .ok out) :
    clean_pdb_for_dssp out = .ok out := by
  obtain ⟨hne, hout⟩ := clean_pdb_for_dssp_ok x out h
  have hall : ∀ l ∈ x.filter isMinimalKept, isMinimalKept l = true := fun l hl =>
    (List.mem_filter.mp hl).2
  have hfix : out.filter isMinimalKept = x.filter isMinimalKept := by
    rw [hout]
    exact filter_minimal_sandwich _ hall
  unfold clean_pdb_for_dssp
  rw [hfix, if_neg (by simpa using hne), hout]
  rfl

/-- Claim C3, witness: idempotence evaluated on a one-ATOM input. -/
theorem minimal_mode_idempotent_witness :
    clean_pdb_for_dssp [headerLine, atomEx, endLine] =
      .ok [headerLine, atomEx, endLine] :=
  minimal_mode_idempotent [atomEx] [headerLine, atomEx, endLine] rfl

/-- Claim C4 (confirmed): every line of a successful minimal-mode output
is the synthesized HEADER, a coordinate line copied from the input, or the
final END record. -/
theorem minimal_output_lines_classified (lines out : List Line)
    (h : clean_pdb_for_dssp lines = .ok out) :
    ∀ l ∈ out, l = headerLine ∨ (l ∈ lines ∧ isCoordRec l = true) ∨ l = endLine := by
  obtain ⟨-, hout⟩ := clean_pdb_for_dssp_ok lines out h
  subst hout
  intro l hl
  rcases List.mem_cons.mp hl with h1 | h1
  · exact Or.inl h1
  · rcases List.mem_append.mp h1 with h2 | h2
    · obtain ⟨hm, hp⟩ := List.mem_filter.mp h2
      exact Or.inr (Or.inl ⟨hm, hp⟩)
    · exact Or.inr (Or.inr (List.mem_singleton.mp h2))

/-- Claim C4, witness: evaluated on the input `[ATOM, REMARK]` at the ATOM
output line. -/
theorem minimal_output_lines_classified_witness :
    atomEx = headerLine ∨
    (atomEx ∈ ([atomEx, remarkEx] : List Line) ∧ isCoordRec atomEx = true) ∨
    atomEx = endLine :=
  minimal_output_lines_classified [atomEx, remarkEx]
    [headerLine, atomEx, endLine] rfl atomEx (by simp)

/-- Claim C5 (confirmed): the permissive filtering stage is one
order-preserving pass — its output is the filtered input (a sublist of the
input, hence in the input's relative order) with at most a synthesized
HEADER in front and at most a synthesized END behind. -/
theorem permissive_preserves_order (lines : List Line) :
    ∃ pre post,
      (pre = [] ∨ pre = [headerLine]) ∧ (post = [] ∨ post = [endLine]) ∧
      clean_pdb_for_mkdssp lines = pre ++ (lines.filter mkdsspKeep ++ post) ∧
      (lines.filter mkdsspKeep).Sublist lines := by
  have hs : (lines.filter mkdsspKeep).Sublist lines := List.filter_sublist lines
  simp only [clean_pdb_for_mkdssp]
  cases hH : lines.any (fun line => pyStartsWith line "HEADER".toList) with
  | true =>
      rw [if_pos rfl]
      split
      · exact ⟨[], [endLine], Or.inl rfl, Or.inr rfl, by simp, hs⟩
      · split
        · exact ⟨[], [], Or.inl rfl, Or.inl rfl, by simp, hs⟩
        · exact ⟨[], [endLine], Or.inl rfl, Or.inr rfl, by simp, hs⟩
  | false =>
      rw [if_neg (by simp)]
      split
      · exact ⟨[headerLine], [endLine], Or.inr rfl, Or.inr rfl, by simp, hs⟩
      · split
        · exact ⟨[headerLine], [], Or.inr rfl, Or.inl rfl, by simp, hs⟩
        · exact ⟨[headerLine], [endLine], Or.inr rfl, Or.inr rfl, by simp, hs⟩

/-- Claim C5, witness: the order theorem evaluated on `[TITLE, ATOM]`. -/
theorem permissive_preserves_order_witness :
    ∃ pre post,
      (pre = [] ∨ pre = [headerLine]) ∧ (post = [] ∨ post = [endLine]) ∧
      clean_pdb_for_mkdssp [titleEx, atomEx] =
        pre ++ (([titleEx, atomEx] : List Line).filter mkdsspKeep ++ post) ∧
      (([titleEx, atomEx] : List Line).filter mkdsspKeep).Sublist [titleEx, atomEx] :=
  permissive_preserves_order [titleEx, atomEx]

/-- Claim C6 (confirmed): when the last retained line is an END record,
the permissive stage appends no second END — the output is just the
retained block (plus the synthesized HEADER when the input had none) and
still ends in that same END record. -/
theorem permissive_no_duplicate_end (lines : List Line) (last : Line)
    (hlast : (lines.filter mkdsspKeep).getLast? = some last)
    (hend : isEndRec last = true) :
    clean_pdb_for_mkdssp lines =
      (if lines.any (fun line => pyStartsWith line "HEADER".toList) then
        lines.filter mkdsspKeep
      else headerLine :: lines.filter mkdsspKeep) ∧
    (clean_pdb_for_mkdssp lines).getLast? = some last := by
  have hpre : pyStartsWith last "END".toList = true :=
    (Bool.and_eq_true _ _ |>.mp hend).1
  have hpre' : pyStartsWith last ['E', 'N', 'D'] = true := hpre
  simp only [clean_pdb_for_mkdssp]
  cases hH : lines.any (fun line => pyStartsWith line "HEADER".toList) with
  | true =>
      rw [if_pos rfl, hlast]
      constructor
      · simp [hpre, hpre']
      · simp [hpre, hpre', hlast]
  | false =>
      rw [if_neg (by simp)]
      have hcons : (headerLine :: lines.filter mkdsspKeep).getLast? = some last := by
        rw [show headerLine :: lines.filter mkdsspKeep
            = [headerLine] ++ lines.filter mkdsspKeep by simp,
          List.getLast?_append, hlast]
        rfl
      rw [hcons]
      constructor
      · simp [hpre, hpre']
      · simp [hpre, hpre', hcons]

/-- Claim C6, witness: no END duplication on the input `[ATOM, END]`. -/
theorem permissive_no_duplicate_end_witness :
    clean_pdb_for_mkdssp [atomEx, endLine] = [headerLine, atomEx, endLine] ∧
    (clean_pdb_for_mkdssp [atomEx, endLine]).getLast? = some endLine := by
  have h := permissive_no_duplicate_end [atomEx, endLine] endLine rfl rfl
  exact ⟨h.1.trans (by rfl), h.2⟩

/-- Claim C7 (confirmed): in a batch run, a failing file is reported and
excluded while every sibling that sanitizes successfully still reaches the
calculator, and the batch halts (no calculator call) exactly when zero
files sanitize successfully. -/
theorem batch_failure_isolation (files : List UploadedFile) :
    (runBatch files).1 = files.filterMap (fun f =>
        match clean_pdb_for_dssp f.2 with
        | .ok out => some (f.1, out)
        | .error _ => none) ∧
    (runBatch files).2 = (files.filter (fun f => ! cleanOk f)).map (fun f => f.1) ∧
    (calculatorInput files = none ↔ ∀ f ∈ files, cleanOk f = false) := by
  have hmap : ∀ fs : List UploadedFile, (runBatch fs).1 = fs.filterMap (fun f =>
      match clean_pdb_for_dssp f.2 with
      | .ok out => some (f.1, out)
      | .error _ => none) := by
    intro fs
    induction fs with
    | nil => rfl
    | cons f rest ih =>
        cases h : clean_pdb_for_dssp f.2 with
        | ok out => simp [runBatch, h, ih, List.filterMap_cons]
        | error e => simp [runBatch, h, ih, List.filterMap_cons]
  have herr : ∀ fs : List UploadedFile, (runBatch fs).2 =
      (fs.filter (fun f => ! cleanOk f)).map (fun f => f.1) := by
    intro fs
    induction fs with
    | nil => rfl
    | cons f rest ih =>
        cases h : clean_pdb_for_dssp f.2 with
        | ok out => simp [runBatch, h, ih, List.filter_cons, cleanOk]
        | error e => simp [runBatch, h, ih, List.filter_cons, cleanOk]
  refine ⟨hmap files, herr files, ?_⟩
  unfold calculatorInput
  constructor
  · intro h
    by_cases hl : (runBatch files).1.length = 0
    · have hnil : (runBatch files).1 = [] := List.length_eq_zero.mp hl
      rw [hmap files] at hnil
      intro f hf
      have hnone := List.filterMap_eq_nil_iff.mp hnil f hf
      unfold cleanOk
      cases hc : clean_pdb_for_dssp f.2 with
      | ok out => rw [hc] at hnone; simp at hnone
      | error e => rfl
    · rw [if_neg hl] at h; cases h
  · intro h
    have hnil : (runBatch files).1 = [] := by
      rw [hmap files]
      rw [List.filterMap_eq_nil_iff]
      intro f hf
      have hc := h f hf
      unfold cleanOk at hc
      cases hcc : clean_pdb_for_dssp f.2 with
      | ok out => rw [hcc] at hc; simp at hc
      | error e => simp [hcc]
    rw [if_pos (by simp [hnil])]

/-- Claim C7, witness: a batch whose first file sanitizes successfully is
not halted. -/
theorem batch_failure_isolation_witness :
    calculatorInput [("a", [atomEx]), ("b", ([] : List Line)), ("c", [hetatmEx])]
      ≠ none := by
  intro hn
  have h := (batch_failure_isolation
    [("a", [atomEx]), ("b", ([] : List Line)), ("c", [hetatmEx])]).2.2.mp hn
    ("a", [atomEx]) (by simp)
  exact absurd h (by decide)

/-- Claim C8 (confirmed): the minimal-mode coordinate test is exactly the
6-character `ATOM  `/`HETATM` test, the permissive filter tests the
4-character `ATOM` (inside its larger keep set), and on the line `ATOMIC
DATA` minimal mode drops it while permissive mode retains it. -/
theorem coord_test_width_difference :
    (∀ l : Line, isMinimalKept l =
      (pyStartsWith l "ATOM  ".toList || pyStartsWith l "HETATM".toList)) ∧
    (∀ l : Line, mkdsspKeep l =
      (pyStartsWith l "HEADER".toList || keepEssential l || keepCryst l)) ∧
    isMinimalKept atomicEx = false ∧
    mkdsspKeep atomicEx = true ∧
    clean_pdb_for_dssp [atomicEx, atomEx] = .ok [headerLine, atomEx, endLine] ∧
    clean_pdb_for_mkdssp [atomicEx, atomEx] =
      [headerLine, atomicEx, atomEx, endLine] := by
  refine ⟨fun l => rfl, fun l => ?_, rfl, rfl, rfl, rfl⟩
  unfold mkdsspKeep
  cases h1 : pyStartsWith l "HEADER".toList <;>
    cases h2 : keepEssential l <;> cases h3 : keepCryst l <;> simp

/-- Claim C9 (confirmed): `ENDMDL` lines pass the trailing `startswith('END')`
test, so an input whose last retained record is `ENDMDL` gets no appended
`END` and the output ends in the `ENDMDL` record, which is not an `END`
record. -/
theorem endmdl_suppresses_end_append :
    pyStartsWith endmdlEx "END".toList = true ∧
    isEndRec endmdlEx = false ∧
    clean_pdb_for_mkdssp [atomEx, endmdlEx] = [headerLine, atomEx, endmdlEx] ∧
    (clean_pdb_for_mkdssp [atomEx, endmdlEx]).getLast? = some endmdlEx :=
  ⟨rfl, rfl, rfl, rfl⟩

/-- Claim C10 (confirmed): minimal-mode output depends only on the
subsequence of `ATOM  `/`HETATM` lines — two inputs with the same filtered
coordinate subsequence yield the same result, failures included. -/
theorem minimal_depends_only_on_coords (x y : List Line)
    (h : x.filter isMinimalKept = y.filter isMinimalKept) :
    clean_pdb_for_dssp x = clean_pdb_for_dssp y := by
  unfold clean_pdb_for_dssp
  rw [h]

/-- Claim C10, witness: two different inputs sharing one ATOM line. -/
theorem minimal_depends_only_on_coords_witness :
    clean_pdb_for_dssp [remarkEx, atomEx] = clean_pdb_for_dssp [atomEx, titleEx] :=
  minimal_depends_only_on_coords [remarkEx, atomEx] [atomEx, titleEx] rfl

end GEODES
